import Mathlib

/-! A shallow embedding: see below.
Shallow embedding of `src/flake-modules/dev/list-plugins.py`, a scanner that
classifies Nixvim plugin definition files by implementation style, editor
ecosystem and presence of deprecation-handling shims, and renders a filtered
report.  Python strings are modelled as `String`; the regular expressions the
script uses are all of the shape `re.match(".*LITERAL", text, re.DOTALL)`
(occurrence of a literal anywhere in the text) or `.*require.+setup`
(an occurrence of "require", then at least one character, then "setup"),
and are modelled by the executable scans below.  File reads are modelled by
an explicit `fs : String → Except PyErr String`; a Python exception is an
`Except.error`.
-/

namespace ListPlugins

/-- A Python exception that the script can raise: an I/O error from `open`
or `read`, or the `UnboundLocalError` raised when a local variable that was
only annotated is read before assignment. -/
inductive PyErr where
  | ioError
  | unboundLocalError
deriving DecidableEq, Repr

/-- Python enum `Kind`: the editor ecosystem of a plugin file. -/
inductive Kind where
  | NEOVIM
  | VIM
  | MISC
deriving DecidableEq, Repr

/-- Python enum `State`: the implementation style of a plugin file. -/
inductive State where
  | UNKNOWN
  | NEW
  | OLD
deriving DecidableEq, Repr

/-- Value of `State.value`: the icon string of each enum member. -/
def State.value : State → String
  | .UNKNOWN => "❔"
  | .NEW => "✅"
  | .OLD => "❌"

/-- Result of `kind.name.lower()` for each `Kind` member. -/
def Kind.nameLower : Kind → String
  | .NEOVIM => "neovim"
  | .VIM => "vim"
  | .MISC => "misc"

/-- Result of `state.name.lower()` for each `State` member. -/
def State.nameLower : State → String
  | .UNKNOWN => "unknown"
  | .NEW => "new"
  | .OLD => "old"

/-- Python dataclass `Plugin`: one classified record per included path. -/
structure Plugin where
  path : String
  state : State
  kind : Kind
  dep_warnings : Bool
deriving DecidableEq, Repr

/-- List `EXCLUDES`: substring patterns of paths that are not plugin files. -/
def EXCLUDES : List String := [
  "TEMPLATE.nix",
  "colorschemes/base16/theme-list.nix",
  "deprecations.nix",
  "helpers.nix",
  "plugins/by-name/dap/dapHelpers.nix",
  "plugins/by-name/efmls-configs/packages.nix",
  "plugins/by-name/gitsigns/options.nix",
  "plugins/by-name/hydra/hydras-option.nix",
  "plugins/by-name/hydra/settings-options.nix",
  "plugins/by-name/neogit/options.nix",
  "plugins/by-name/neotest/adapters-list.nix",
  "plugins/by-name/neotest/adapters.nix",
  "plugins/by-name/neotest/options.nix",
  "plugins/by-name/none-ls/_mk-source-plugin.nix",
  "plugins/by-name/none-ls/packages.nix",
  "plugins/by-name/none-ls/prettier.nix",
  "plugins/by-name/none-ls/prettierd.nix",
  "plugins/by-name/none-ls/settings.nix",
  "plugins/by-name/none-ls/sources.nix",
  "plugins/by-name/rustaceanvim/renamed-options.nix",
  "plugins/by-name/rustaceanvim/settings-options.nix",
  "plugins/by-name/startify/options.nix",
  "plugins/by-name/telescope/extensions/_mk-extension.nix",
  "plugins/by-name/telescope/extensions/default.nix",
  "plugins/cmp/auto-enable.nix",
  "plugins/cmp/options/",
  "plugins/cmp/sources/cmp-fish.nix",
  "plugins/cmp/sources/default.nix",
  "plugins/default.nix",
  "plugins/deprecation.nix",
  "plugins/lsp/language-servers/",
  "plugins/lsp/lsp-packages.nix"]

/-- The entries written literally in the `KNOWN_PATHS` dict. -/
def KNOWN_PATHS_base : List (String × State × Kind × Bool) := [
  ("plugins/by-name/chadtree/default.nix", State.OLD, Kind.NEOVIM, false),
  ("plugins/by-name/coq-thirdparty/default.nix", State.OLD, Kind.NEOVIM, false),
  ("plugins/by-name/dap/default.nix", State.OLD, Kind.NEOVIM, false),
  ("plugins/by-name/gitmessenger/default.nix", State.OLD, Kind.VIM, false),
  ("plugins/by-name/intellitab/default.nix", State.OLD, Kind.VIM, false),
  ("plugins/by-name/leap/default.nix", State.OLD, Kind.NEOVIM, false),
  ("plugins/by-name/lint/default.nix", State.OLD, Kind.NEOVIM, false),
  ("plugins/by-name/lspkind/default.nix", State.OLD, Kind.NEOVIM, false),
  ("plugins/by-name/nix-develop/default.nix", State.OLD, Kind.NEOVIM, false),
  ("plugins/by-name/openscad/default.nix", State.OLD, Kind.VIM, false),
  ("plugins/by-name/plantuml-syntax/default.nix", State.OLD, Kind.VIM, false),
  ("plugins/by-name/rainbow-delimiters/default.nix", State.OLD, Kind.NEOVIM, false),
  ("plugins/by-name/treesitter-refactor/default.nix", State.OLD, Kind.MISC, true),
  ("plugins/by-name/treesitter-textobjects/default.nix", State.OLD, Kind.NEOVIM, true),
  ("plugins/by-name/vim-bbye/default.nix", State.OLD, Kind.VIM, false),
  ("plugins/by-name/vim-matchup/default.nix", State.OLD, Kind.VIM, false),
  ("plugins/colorschemes/base16/default.nix", State.NEW, Kind.VIM, true),
  ("plugins/lsp/default.nix", State.NEW, Kind.MISC, false)]

/-- The dict of extension name to has-deprecation-warnings flag that seeds
the telescope-extension loop extending `KNOWN_PATHS`. -/
def telescope_extensions : List (String × Bool) := [
  ("file-browser", true),
  ("frecency", true),
  ("fzf-native", true),
  ("fzy-native", true),
  ("live-greps-args", false),
  ("manix", false),
  ("media-files", true),
  ("ui-select", false),
  ("undo", true)]

/-- Dict `KNOWN_PATHS` after the telescope-extension loop has run: the literal
entries followed by one `(State.NEW, Kind.MISC, has_depr_warnings)` entry per
telescope extension, under the derived path. -/
def KNOWN_PATHS : List (String × State × Kind × Bool) :=
  KNOWN_PATHS_base ++ telescope_extensions.map (fun e =>
    ("plugins/by-name/telescope/extensions/" ++ e.1 ++ ".nix",
      State.NEW, Kind.MISC, e.2))

/-- Combined `path in KNOWN_PATHS` and `KNOWN_PATHS[path]`: dictionary lookup
by exact key. -/
def knownLookup (path : String) : Option (State × Kind × Bool) :=
  (KNOWN_PATHS.find? (fun e => e.1 == path)).map (fun e => e.2)

/-- Whether the literal `pat` occurs (contiguously) somewhere in `s`. -/
def listContains (pat s : List Char) : Bool :=
  (List.range (s.length + 1)).any (fun i => pat.isPrefixOf (s.drop i))

/-- Model of `re.match(re.compile(".*" + pat, re.DOTALL), text)` for a literal `pat`:
with `DOTALL` the leading `.*` absorbs any prefix (newlines included), so the
regex matches exactly when `pat` occurs anywhere in the text. -/
def regexContains (pat text : String) : Bool :=
  listContains pat.toList text.toList

/-- The Python substring operator `pat in s`. -/
def strIn (pat s : String) : Bool :=
  listContains pat.toList s.toList

/-- Model of `re.match(re.compile(".*require.+setup", re.DOTALL), text)`: an
occurrence of `"require"` starting at some index `i`, followed — after at
least one intervening character — by an occurrence of `"setup"` starting at
some index `j ≥ i + 8`. -/
def matchRequireSetup (text : String) : Bool :=
  let s := text.toList
  (List.range (s.length + 1)).any (fun i =>
    ("require".toList).isPrefixOf (s.drop i) &&
      (List.range (s.length + 1)).any (fun j =>
        decide (i + 8 ≤ j) && ("setup".toList).isPrefixOf (s.drop j)))

/-- The four literal deprecation markers of `DEPRECATION_REGEX` (each is
wrapped as `.*marker` with `DOTALL` and tested with `re.match`). -/
def DEPRECATION_MARKERS : List String := [
  "deprecateExtra",
  "mkRemovedOptionModule",
  "mkRenamedOptionModule",
  "optionsRenamedToSettings"]

/-- Function `has_deprecation_warnings(string)`: true when any of the four markers
occurs anywhere in the string. -/
def has_deprecation_warnings (string : String) : Bool :=
  DEPRECATION_MARKERS.any (fun pat => regexContains pat string)

/-- Lines 177–196 of `parse_file`: `state` is initialised to
`State.UNKNOWN`, `kind` is only annotated; the ordered `if/elif` chain
assigns both on its first matching branch.  The returned `Option Kind` is
`none` exactly when `kind` is left unassigned. -/
def heuristicStateKind (file_content : String) : State × Option Kind :=
  if regexContains "mkNeovimPlugin" file_content then
    (State.NEW, some Kind.NEOVIM)
  else if matchRequireSetup file_content then
    (State.OLD, some Kind.NEOVIM)
  else if regexContains "mkVimPlugin" file_content then
    (State.NEW, some Kind.VIM)
  else
    (State.UNKNOWN, none)

/-- Function `parse_file(path)`.  The file is read first (a failing read propagates
its exception); then the `KNOWN_PATHS` override is consulted; otherwise the
heuristics run.  When no heuristic matched, constructing
`Plugin(kind=kind, ...)` reads the unassigned local `kind` and raises
`UnboundLocalError`.  The `Option` in the result models the
`Optional[Plugin]` return annotation. -/
def parse_file (fs : String → Except PyErr String) (path : String) :
    Except PyErr (Option Plugin) :=
  match fs path with
  | .error e => .error e
  | .ok file_content =>
    match knownLookup path with
    | some props =>
      .ok (some { path := path, state := props.1, kind := props.2.1,
                  dep_warnings := props.2.2 })
    | none =>
      match heuristicStateKind file_content with
      | (_, none) => .error PyErr.unboundLocalError
      | (state, some kind) =>
        .ok (some { path := path, state := state, kind := kind,
                    dep_warnings := has_deprecation_warnings file_content })

/-- Function `_is_excluded(path)`: iterates over `EXCLUDES` and returns `False` as
soon as a pattern is a substring of the path, `True` when none is.  (So the
function returns `True` exactly for the paths that survive the filter.) -/
def _is_excluded (path : String) : Bool :=
  EXCLUDES.all (fun exclude_pattern => !(strIn exclude_pattern path))

/-- The optional report filters of `args` in `main` (the CLI restricts
`--kind` and `--state` to the enum names, so they are modelled as the enum
members directly), plus the `--markdown` mode switch. -/
structure Args where
  kind : Option Kind
  state : Option State
  deprecation_warnings : Bool
  markdown : Bool
deriving DecidableEq, Repr

/-- The combined filter condition of the inner `if` of `main`: each supplied
filter must hold, an absent filter passes everything. -/
def passesFilters (args : Args) (plugin : Plugin) : Bool :=
  (match args.kind with
   | none => true
   | some k => plugin.kind.nameLower == k.nameLower) &&
  (match args.state with
   | none => true
   | some s => plugin.state.nameLower == s.nameLower) &&
  (!args.deprecation_warnings || plugin.dep_warnings)

/-- Lexicographic comparison of characters by code point: the order Python
uses to compare strings ascending in `list.sort`. -/
def charListLe : List Char → List Char → Bool
  | [], _ => true
  | _ :: _, [] => false
  | x :: xs, y :: ys =>
    if x.toNat < y.toNat then true
    else if y.toNat < x.toNat then false
    else charListLe xs ys

/-- Comparison of Python strings: lexicographic on their code points. -/
def pyStrLe (a b : String) : Bool :=
  charListLe a.toList b.toList

/-- Value of `filtered_paths` after the filter and in-place sort in `main`:
the discovered paths that survive `_is_excluded`, sorted ascending under the
Python string order.  The sorted rearrangement of a list is unique for a
total order (up to the placement of equal elements, and equal strings are
indistinguishable), so the concrete sorting algorithm is irrelevant;
insertion sort is used here. -/
def sortedFilteredPaths (paths : List String) : List String :=
  List.insertionSort (fun a b => pyStrLe a b = true) (paths.filter _is_excluded)

/-- The `for plugin_path in filtered_paths` loop of `main`: parses each path in
order, keeps the records that pass the filters, and propagates the first
exception. -/
def mainLoop (fs : String → Except PyErr String) (args : Args) :
    List String → Except PyErr (List Plugin)
  | [] => .ok []
  | p :: rest =>
    match parse_file fs p with
    | .error e => .error e
    | .ok none => mainLoop fs args rest
    | .ok (some plugin) =>
      match mainLoop fs args rest with
      | .error e => .error e
      | .ok tail =>
        .ok (if passesFilters args plugin then plugin :: tail else tail)

/-- The sequence of records `main` emits for a discovered path list `paths`
over filesystem `fs`: exclusion filter, sort, then the report loop. -/
def mainPlugins (fs : String → Except PyErr String) (args : Args)
    (paths : List String) : Except PyErr (List Plugin) :=
  mainLoop fs args (sortedFilteredPaths paths)

/-- Method `Plugin.print_markdown`: the markdown checklist line. -/
def Plugin.markdownLine (p : Plugin) : String :=
  "- [ ] " ++ p.path ++ " (" ++ p.kind.nameLower ++ ")"

/-- Method `Plugin.__str__`: the table row. -/
def Plugin.str (p : Plugin) : String :=
  let kind_icon : String :=
    match p.kind with
    | Kind.NEOVIM => "\x1b[94m" ++ " "
    | Kind.VIM => "\x1b[92m" ++ " "
    | Kind.MISC => "\x1b[92m" ++ "🟢"
  let deprecation_icon : String := if p.dep_warnings then "⚠️ " else "  "
  "| " ++ kind_icon ++ "\x1b[0m  | " ++ p.state.value ++ "  | " ++
    deprecation_icon ++ " | " ++ p.path

/-- The two header lines printed in tabular mode. -/
def headerLines : List String := [
  "| Typ | Sty | DW | path",
  "|-----|-----|----|--------------------------------------------------------"]

/-- The lines the report prints for an emitted record list, in each mode. -/
def outputLines (args : Args) (plugins : List Plugin) : List String :=
  if args.markdown then plugins.map Plugin.markdownLine
  else headerLines ++ plugins.map Plugin.str

/-! Bridging lemmas between the executable scans and substring occurrence. -/

/-- Lemma: `listContains pat s` holds exactly when `pat` is an infix of `s`. -/
theorem listContains_iff_occurs (pat s : List Char) :
    listContains pat s = true ↔ pat <:+: s := by
  constructor
  · intro h
    rw [listContains, List.any_eq_true] at h
    obtain ⟨i, _, hpre⟩ := h
    rw [List.isPrefixOf_iff_prefix] at hpre
    exact List.infix_iff_prefix_suffix.mpr ⟨s.drop i, hpre, List.drop_suffix i s⟩
  · intro h
    obtain ⟨t, hpt, hts⟩ := List.infix_iff_prefix_suffix.mp h
    rw [List.suffix_iff_eq_drop] at hts
    rw [listContains, List.any_eq_true]
    refine ⟨s.length - t.length, ?_, ?_⟩
    · rw [List.mem_range]
      omega
    · rw [List.isPrefixOf_iff_prefix, ← hts]
      exact hpt

/-- Lemma: the Python substring test agrees with infix occurrence. -/
theorem strIn_iff_occurs (pat s : String) :
    strIn pat s = true ↔ pat.toList <:+: s.toList :=
  listContains_iff_occurs pat.toList s.toList

/-- Lemma: the whole-text regex scan for a literal pattern agrees with infix
occurrence. -/
theorem regexContains_iff_occurs (pat s : String) :
    regexContains pat s = true ↔ pat.toList <:+: s.toList :=
  listContains_iff_occurs pat.toList s.toList

/-- Helper: a record returned by `parse_file` carries the path it was
called on. -/
theorem parse_file_path_eq (fs : String → Except PyErr String) (path : String)
    (plugin : Plugin) (h : parse_file fs path = Except.ok (some plugin)) :
    plugin.path = path := by
  unfold parse_file at h
  split at h
  · exact absurd h (by simp)
  · split at h
    · simp only [Except.ok.injEq, Option.some.injEq] at h
      rw [← h]
    · split at h
      · exact absurd h (by simp)
      · simp only [Except.ok.injEq, Option.some.injEq] at h
        rw [← h]

/-- Helper: the paths of the records an error-free run of the report loop
emits form a sublist of the path list it iterated. -/
theorem mainLoop_paths_sublist (fs : String → Except PyErr String) (args : Args) :
    ∀ ps l, mainLoop fs args ps = Except.ok l → (l.map Plugin.path).Sublist ps := by
  intro ps
  induction ps with
  | nil =>
    intro l h
    simp only [mainLoop, Except.ok.injEq] at h
    rw [← h]
    simp
  | cons p rest ih =>
    intro l h
    simp only [mainLoop] at h
    split at h
    · exact absurd h (by simp)
    · exact List.Sublist.cons p (ih l h)
    · next plugin heq =>
      split at h
      · exact absurd h (by simp)
      · next tail heq2 =>
        simp only [Except.ok.injEq] at h
        rw [← h]
        by_cases hkeep : passesFilters args plugin = true
        · rw [if_pos hkeep]
          simp only [List.map_cons]
          rw [parse_file_path_eq fs p plugin heq]
          exact List.Sublist.cons₂ p (ih tail heq2)
        · rw [if_neg hkeep]
          exact List.Sublist.cons p (ih tail heq2)

/-- Helper: transitivity of the code-point comparison. -/
theorem charListLe_trans : ∀ (a b c : List Char), charListLe a b = true →
    charListLe b c = true → charListLe a c = true
  | [], _, _, _, _ => rfl
  | _ :: _, [], _, hab, _ => by simp [charListLe] at hab
  | _ :: _, _ :: _, [], _, hbc => by simp [charListLe] at hbc
  | x :: xs, y :: ys, z :: zs, hab, hbc => by
    simp only [charListLe] at hab hbc ⊢
    rcases Nat.lt_trichotomy x.toNat y.toNat with hxy | hxy | hxy
    · rcases Nat.lt_trichotomy y.toNat z.toNat with hyz | hyz | hyz
      · rw [if_pos (Nat.lt_trans hxy hyz)]
      · rw [if_pos (hyz ▸ hxy)]
      · rw [if_neg (by omega), if_pos hyz] at hbc
        exact absurd hbc (by simp)
    · rw [if_neg (by omega), if_neg (by omega)] at hab
      rcases Nat.lt_trichotomy y.toNat z.toNat with hyz | hyz | hyz
      · rw [if_pos (by omega)]
      · rw [if_neg (by omega), if_neg (by omega)] at hbc
        rw [if_neg (by omega), if_neg (by omega)]
        exact charListLe_trans xs ys zs hab hbc
      · rw [if_neg (by omega), if_pos hyz] at hbc
        exact absurd hbc (by simp)
    · rw [if_neg (by omega), if_pos hxy] at hab
      exact absurd hab (by simp)

/-- Helper: totality of the code-point comparison. -/
theorem charListLe_total : ∀ (a b : List Char),
    charListLe a b = true ∨ charListLe b a = true
  | [], _ => Or.inl rfl
  | _ :: _, [] => Or.inr rfl
  | x :: xs, y :: ys => by
    simp only [charListLe]
    rcases Nat.lt_trichotomy x.toNat y.toNat with h | h | h
    · left
      rw [if_pos h]
    · rcases charListLe_total xs ys with ih | ih
      · left
        rw [if_neg (by omega), if_neg (by omega)]
        exact ih
      · right
        rw [if_neg (by omega), if_neg (by omega)]
        exact ih
    · right
      rw [if_pos h]

/-- Helper: the sorted filtered path list is sorted under the Python string
order. -/
theorem sortedFilteredPaths_sorted (paths : List String) :
    (sortedFilteredPaths paths).Pairwise (fun a b => pyStrLe a b = true) :=
  @List.sorted_insertionSort String (fun a b => pyStrLe a b = true) _
    ⟨fun a b => charListLe_total a.toList b.toList⟩
    ⟨fun a b c hab hbc => charListLe_trans a.toList b.toList c.toList hab hbc⟩
    (paths.filter _is_excluded)

/-! Claim theorems. -/

/-- C1: the spec says `parse_file` returns a record for every readable,
included path and raises no exception, with an unresolved record when no
heuristic matches.  The code instead raises: for a path absent from
`KNOWN_PATHS` whose content matches no heuristic, `state` is left at
`State.UNKNOWN` but the local `kind` is never assigned, so building the
record raises `UnboundLocalError`.  This theorem evaluates the code at such
a failing input: content `""` matches none of the three heuristics, yet the
call errors instead of returning an unresolved record. -/
theorem parse_file_unmatched_content_raises :
    knownLookup "plugins/by-name/foo/default.nix" = none ∧
    heuristicStateKind "" = (State.UNKNOWN, none) ∧
    parse_file (fun _ => Except.ok "") "plugins/by-name/foo/default.nix" =
      Except.error PyErr.unboundLocalError :=
  ⟨by decide, by decide, rfl⟩

/-- C2: for every path that is a key of `KNOWN_PATHS`, `parse_file` returns
exactly the overridden triple from the table, whatever the file content is:
the content is universally quantified, so the heuristics and the
deprecation-marker detection cannot influence the result. -/
theorem parse_file_override_wins (path content : String) (st : State)
    (k : Kind) (d : Bool) (h : knownLookup path = some (st, k, d)) :
    parse_file (fun _ => Except.ok content) path =
      Except.ok (some { path := path, state := st, kind := k,
                        dep_warnings := d }) := by
  simp [parse_file, h]

/-- Witness for C2: the override path of chadtree is tabled as
`(OLD, NEOVIM, false)`; a content that would heuristically classify as
`(NEW, NEOVIM)` (it contains `mkNeovimPlugin`) still yields the tabled
triple. -/
theorem parse_file_override_wins_witness :
    knownLookup "plugins/by-name/chadtree/default.nix" =
      some (State.OLD, Kind.NEOVIM, false) ∧
    heuristicStateKind "mkNeovimPlugin" = (State.NEW, some Kind.NEOVIM) ∧
    parse_file (fun _ => Except.ok "mkNeovimPlugin")
        "plugins/by-name/chadtree/default.nix" =
      Except.ok (some { path := "plugins/by-name/chadtree/default.nix",
                        state := State.OLD, kind := Kind.NEOVIM,
                        dep_warnings := false }) :=
  ⟨by decide, by decide,
   parse_file_override_wins "plugins/by-name/chadtree/default.nix"
     "mkNeovimPlugin" State.OLD Kind.NEOVIM false (by decide)⟩

/-- C3: the heuristic classification is an ordered short-circuit over the
whole text.  Any content containing `mkNeovimPlugin` anywhere (whatever else
it contains) classifies as `(NEW, NEOVIM)`; a content without
`mkNeovimPlugin` that matches the legacy `require…setup` idiom classifies
as `(OLD, NEOVIM)`; a content matching neither that contains `mkVimPlugin`
classifies as `(NEW, VIM)`. -/
theorem heuristic_short_circuit (content : String) :
    ("mkNeovimPlugin".toList <:+: content.toList →
      heuristicStateKind content = (State.NEW, some Kind.NEOVIM)) ∧
    (¬ "mkNeovimPlugin".toList <:+: content.toList →
      matchRequireSetup content = true →
      heuristicStateKind content = (State.OLD, some Kind.NEOVIM)) ∧
    (¬ "mkNeovimPlugin".toList <:+: content.toList →
      matchRequireSetup content = false →
      "mkVimPlugin".toList <:+: content.toList →
      heuristicStateKind content = (State.NEW, some Kind.VIM)) := by
  refine ⟨?_, ?_, ?_⟩
  · intro h1
    have hb : regexContains "mkNeovimPlugin" content = true :=
      (regexContains_iff_occurs "mkNeovimPlugin" content).mpr h1
    simp [heuristicStateKind, hb]
  · intro h1 h2
    have hb : regexContains "mkNeovimPlugin" content = false :=
      Bool.eq_false_iff.mpr
        (fun hc => h1 ((regexContains_iff_occurs "mkNeovimPlugin" content).mp hc))
    simp [heuristicStateKind, hb, h2]
  · intro h1 h2 h3
    have hb : regexContains "mkNeovimPlugin" content = false :=
      Bool.eq_false_iff.mpr
        (fun hc => h1 ((regexContains_iff_occurs "mkNeovimPlugin" content).mp hc))
    have hv : regexContains "mkVimPlugin" content = true :=
      (regexContains_iff_occurs "mkVimPlugin" content).mpr h3
    simp [heuristicStateKind, hb, h2, hv]

/-- Witness for C3: a content containing all three markers — the modern
neovim marker, the legacy `require…setup` idiom and the vim marker — takes
the outcome of the first rule. -/
theorem heuristic_short_circuit_witness :
    matchRequireSetup "mkNeovimPlugin require(x).setup mkVimPlugin" = true ∧
    "mkVimPlugin".toList <:+:
      "mkNeovimPlugin require(x).setup mkVimPlugin".toList ∧
    heuristicStateKind "mkNeovimPlugin require(x).setup mkVimPlugin" =
      (State.NEW, some Kind.NEOVIM) :=
  ⟨by decide, by decide,
   (heuristic_short_circuit "mkNeovimPlugin require(x).setup mkVimPlugin").1
     (by decide)⟩

/-- C9: `parse_file` never evaluates to `None` despite its
`Optional[Plugin]` annotation: every run either raises an exception or
returns a `Plugin` record, so the `if plugin is not None` guard in `main`
never rejects a returned value. -/
theorem parse_file_never_none (fs : String → Except PyErr String)
    (path : String) :
    (∃ e, parse_file fs path = Except.error e) ∨
    (∃ plugin, parse_file fs path = Except.ok (some plugin)) := by
  unfold parse_file
  split
  · next e _ => exact Or.inl ⟨e, rfl⟩
  · split
    · exact Or.inr ⟨_, rfl⟩
    · split
      · exact Or.inl ⟨PyErr.unboundLocalError, rfl⟩
      · exact Or.inr ⟨_, rfl⟩

/-- Helper: a kind the heuristics assign is NEOVIM or VIM. -/
theorem heuristicStateKind_kind_cases (content : String) (st : State)
    (k : Kind) (h : heuristicStateKind content = (st, some k)) :
    k = Kind.NEOVIM ∨ k = Kind.VIM := by
  unfold heuristicStateKind at h
  split at h
  · simp_all
  · split at h
    · simp_all
    · split at h
      · simp_all
      · simp_all

/-- C10: the heuristic content classifier never assigns `Kind.MISC`; hence
a returned record with ecosystem MISC can only come from a `KNOWN_PATHS`
entry. -/
theorem heuristic_never_misc :
    (∀ content st k, heuristicStateKind content = (st, some k) →
      k ≠ Kind.MISC) ∧
    (∀ fs path plugin, parse_file fs path = Except.ok (some plugin) →
      plugin.kind = Kind.MISC → ∃ props, knownLookup path = some props) := by
  constructor
  · intro content st k h
    rcases heuristicStateKind_kind_cases content st k h with h2 | h2 <;>
      simp [h2]
  · intro fs path plugin h hm
    unfold parse_file at h
    split at h
    · exact absurd h (by simp)
    · split at h
      · next props heq => exact ⟨props, heq⟩
      · next heq =>
        split at h
        · exact absurd h (by simp)
        · next st k heq2 =>
          simp only [Except.ok.injEq, Option.some.injEq] at h
          rw [← h] at hm
          have hk : k = Kind.MISC := hm
          rcases heuristicStateKind_kind_cases _ _ _ heq2 with h2 | h2 <;>
            rw [h2] at hk <;> exact absurd hk (by simp)

/-- Witness for C10: content `mkNeovimPlugin` is heuristically classified
NEOVIM, which is not MISC; and the MISC record the scan produces for
`plugins/lsp/default.nix` indeed has an override entry. -/
theorem heuristic_never_misc_witness :
    heuristicStateKind "mkNeovimPlugin" = (State.NEW, some Kind.NEOVIM) ∧
    Kind.NEOVIM ≠ Kind.MISC ∧
    (∃ props, knownLookup "plugins/lsp/default.nix" = some props) :=
  ⟨by decide,
   heuristic_never_misc.1 "mkNeovimPlugin" State.NEW Kind.NEOVIM (by decide),
   heuristic_never_misc.2 (fun _ => Except.ok "") "plugins/lsp/default.nix"
     { path := "plugins/lsp/default.nix", state := State.NEW,
       kind := Kind.MISC, dep_warnings := false } rfl rfl⟩

/-- C4: exclusion semantics.  `_is_excluded` returns `True` exactly when no
`EXCLUDES` pattern occurs in the path as a substring; membership in the
filtered (and sorted) path list is exactly membership in the input on which
`_is_excluded` returned `True`; hence every record of any error-free run has
a path on which `_is_excluded` returned `True`, so a path containing an
exclusion pattern produces no record. -/
theorem excludes_filter_semantics :
    (∀ path, _is_excluded path = true ↔
      ∀ pat ∈ EXCLUDES, ¬ pat.toList <:+: path.toList) ∧
    (∀ paths path, path ∈ sortedFilteredPaths paths ↔
      path ∈ paths ∧ _is_excluded path = true) ∧
    (∀ fs args paths l, mainPlugins fs args paths = Except.ok l →
      ∀ plugin ∈ l, _is_excluded plugin.path = true) := by
  have hmem : ∀ paths path, path ∈ sortedFilteredPaths paths ↔
      path ∈ paths ∧ _is_excluded path = true := by
    intro paths path
    rw [sortedFilteredPaths,
      (List.perm_insertionSort (fun a b => pyStrLe a b = true)
        (paths.filter _is_excluded)).mem_iff,
      List.mem_filter]
  refine ⟨?_, hmem, ?_⟩
  · intro path
    rw [_is_excluded, List.all_eq_true]
    constructor
    · intro h pat hpat hin
      have h1 : strIn pat path = false := by
        have hx := h pat hpat
        rwa [Bool.not_eq_true'] at hx
      have h2 : strIn pat path = true := (strIn_iff_occurs pat path).mpr hin
      rw [h1] at h2
      exact Bool.false_ne_true h2
    · intro h pat hpat
      rw [Bool.not_eq_true']
      exact Bool.eq_false_iff.mpr
        (fun hc => h pat hpat ((strIn_iff_occurs pat path).mp hc))
  · intro fs args paths l h plugin hpl
    have hsub := mainLoop_paths_sublist fs args _ l h
    have hpath : plugin.path ∈ sortedFilteredPaths paths :=
      hsub.subset (List.mem_map_of_mem Plugin.path hpl)
    exact ((hmem paths plugin.path).mp hpath).2

/-- Witness for C4: the path `foo/plugins/default.nix` contains the
exclusion pattern `plugins/default.nix`, so `_is_excluded` rejects it and it
does not survive the filter. -/
theorem excludes_filter_semantics_witness :
    _is_excluded "foo/plugins/default.nix" = false ∧
    ("foo/plugins/default.nix" ∈ sortedFilteredPaths ["foo/plugins/default.nix"] →
      False) :=
  ⟨by decide,
   fun h => by
    have h2 := (excludes_filter_semantics.2.1 ["foo/plugins/default.nix"]
      "foo/plugins/default.nix").mp h
    rw [show _is_excluded "foo/plugins/default.nix" = false from by decide] at h2
    exact Bool.false_ne_true h2.2⟩

/-- C5: deprecation detection is a pure membership test on the content:
`has_deprecation_warnings` is true exactly when one of the four markers
occurs anywhere in the text (and it depends on nothing else, in particular
not on the style or ecosystem classification). -/
theorem has_deprecation_warnings_iff (s : String) :
    has_deprecation_warnings s = true ↔
      ("deprecateExtra".toList <:+: s.toList ∨
       "mkRemovedOptionModule".toList <:+: s.toList ∨
       "mkRenamedOptionModule".toList <:+: s.toList ∨
       "optionsRenamedToSettings".toList <:+: s.toList) := by
  rw [has_deprecation_warnings, DEPRECATION_MARKERS, List.any_eq_true]
  constructor
  · rintro ⟨pat, hpat, hb⟩
    simp only [List.mem_cons, List.not_mem_nil, or_false] at hpat
    rcases hpat with rfl | rfl | rfl | rfl
    · exact Or.inl ((regexContains_iff_occurs _ s).mp hb)
    · exact Or.inr (Or.inl ((regexContains_iff_occurs _ s).mp hb))
    · exact Or.inr (Or.inr (Or.inl ((regexContains_iff_occurs _ s).mp hb)))
    · exact Or.inr (Or.inr (Or.inr ((regexContains_iff_occurs _ s).mp hb)))
  · rintro (h | h | h | h)
    · exact ⟨"deprecateExtra", by simp, (regexContains_iff_occurs _ s).mpr h⟩
    · exact ⟨"mkRemovedOptionModule", by simp,
        (regexContains_iff_occurs _ s).mpr h⟩
    · exact ⟨"mkRenamedOptionModule", by simp,
        (regexContains_iff_occurs _ s).mpr h⟩
    · exact ⟨"optionsRenamedToSettings", by simp,
        (regexContains_iff_occurs _ s).mpr h⟩

/-- C6: records are emitted in ascending lexicographic path order — the
path list is filtered and sorted before any classification runs, and the
record sequence of every error-free run is sorted by path; both output
modes render that same record sequence in order (one line per record, in
sequence). -/
theorem main_emits_sorted_paths :
    (∀ fs args paths l, mainPlugins fs args paths = Except.ok l →
      (l.map Plugin.path).Pairwise (fun a b => pyStrLe a b = true)) ∧
    (∀ args plugins, args.markdown = true →
      outputLines args plugins = plugins.map Plugin.markdownLine) ∧
    (∀ args plugins, args.markdown = false →
      outputLines args plugins = headerLines ++ plugins.map Plugin.str) := by
  refine ⟨?_, ?_, ?_⟩
  · intro fs args paths l h
    exact List.Pairwise.sublist (mainLoop_paths_sublist fs args _ l h)
      (sortedFilteredPaths_sorted paths)
  · intro args plugins h
    rw [outputLines, if_pos h]
  · intro args plugins h
    rw [outputLines, if_neg (by rw [h]; exact Bool.false_ne_true)]

/-- Witness for C6: for discovered paths `["b/x.ext", "a/y.ext"]` the run
reports `a/y.ext` before `b/x.ext`, and the emitted path sequence is
sorted. -/
theorem main_emits_sorted_paths_witness :
    mainPlugins (fun _ => Except.ok "mkNeovimPlugin")
        { kind := none, state := none, deprecation_warnings := false,
          markdown := true } ["b/x.ext", "a/y.ext"] =
      Except.ok
        [{ path := "a/y.ext", state := State.NEW, kind := Kind.NEOVIM,
           dep_warnings := false },
         { path := "b/x.ext", state := State.NEW, kind := Kind.NEOVIM,
           dep_warnings := false }] ∧
    List.Pairwise (fun a b => pyStrLe a b = true)
      (List.map Plugin.path
        [{ path := "a/y.ext", state := State.NEW, kind := Kind.NEOVIM,
           dep_warnings := false },
         { path := "b/x.ext", state := State.NEW, kind := Kind.NEOVIM,
           dep_warnings := false }]) :=
  ⟨rfl,
   main_emits_sorted_paths.1 (fun _ => Except.ok "mkNeovimPlugin")
     { kind := none, state := none, deprecation_warnings := false,
       markdown := true } ["b/x.ext", "a/y.ext"] _ rfl⟩

/-- Helper: comparing lowercase kind names is comparing kinds. -/
theorem kind_nameLower_inj (a b : Kind) :
    a.nameLower = b.nameLower ↔ a = b := by
  cases a <;> cases b <;> decide

/-- Helper: comparing lowercase state names is comparing states. -/
theorem state_nameLower_inj (a b : State) :
    a.nameLower = b.nameLower ↔ a = b := by
  cases a <;> cases b <;> decide

/-- Helper: with no filter supplied, every record passes. -/
theorem passesFilters_noFilter (markdown : Bool) (plugin : Plugin) :
    passesFilters
        { kind := none, state := none, deprecation_warnings := false,
          markdown := markdown } plugin = true :=
  rfl

/-- Helper: the filtered report loop emits exactly the records of the
unfiltered loop that pass the filters. -/
theorem mainLoop_filter_eq (fs : String → Except PyErr String) (args : Args) :
    ∀ ps, mainLoop fs args ps =
      (mainLoop fs
          { kind := none, state := none, deprecation_warnings := false,
            markdown := args.markdown } ps).map
        (fun l => l.filter (passesFilters args)) := by
  intro ps
  induction ps with
  | nil => rfl
  | cons p rest ih =>
    simp only [mainLoop]
    cases parse_file fs p with
    | error e => rfl
    | ok plugOpt =>
      cases plugOpt with
      | none => exact ih
      | some plugin =>
        rw [ih]
        cases mainLoop fs
            { kind := none, state := none,
              deprecation_warnings := false, markdown := args.markdown } rest with
        | error e => rfl
        | ok tail =>
          simp only [Except.map, passesFilters_noFilter, if_true]
          cases hk : passesFilters args plugin <;>
            simp [List.filter_cons, hk]

/-- C7: the report filters compose by logical AND — a record is kept exactly
when every supplied filter holds of it (an absent filter constrains
nothing), and a filtered run emits exactly the records of the unfiltered
run that pass the filters. -/
theorem report_filters_and :
    (∀ args plugin, passesFilters args plugin = true ↔
      ((∀ k, args.kind = some k → plugin.kind = k) ∧
       (∀ st, args.state = some st → plugin.state = st) ∧
       (args.deprecation_warnings = true → plugin.dep_warnings = true))) ∧
    (∀ fs args paths, mainPlugins fs args paths =
      (mainPlugins fs
          { kind := none, state := none,
            deprecation_warnings := false, markdown := args.markdown } paths).map
        (fun l => l.filter (passesFilters args))) := by
  constructor
  · intro args plugin
    rcases args with ⟨ko, so, d, m⟩
    cases ko <;> cases so <;> cases d <;>
      simp [passesFilters, kind_nameLower_inj, state_nameLower_inj,
        Bool.and_eq_true, and_assoc]
  · intro fs args paths
    exact mainLoop_filter_eq fs args (sortedFilteredPaths paths)

/-- Witness for C7: of three records `(NEOVIM, NEW)`, `(NEOVIM, OLD)`,
`(VIM, NEW)`, filtering by kind NEOVIM and state NEW keeps exactly the
first; and the kept record satisfies each supplied filter. -/
theorem report_filters_and_witness :
    List.filter
        (passesFilters
          { kind := some Kind.NEOVIM, state := some State.NEW,
            deprecation_warnings := false, markdown := false })
        [{ path := "p1", state := State.NEW, kind := Kind.NEOVIM,
           dep_warnings := false },
         { path := "p2", state := State.OLD, kind := Kind.NEOVIM,
           dep_warnings := false },
         { path := "p3", state := State.NEW, kind := Kind.VIM,
           dep_warnings := false }] =
      [{ path := "p1", state := State.NEW, kind := Kind.NEOVIM,
         dep_warnings := false }] ∧
    (passesFilters
        { kind := some Kind.NEOVIM, state := some State.NEW,
          deprecation_warnings := false, markdown := false }
        { path := "p1", state := State.NEW, kind := Kind.NEOVIM,
          dep_warnings := false } = true ↔
      ((∀ k, (some Kind.NEOVIM : Option Kind) = some k → Kind.NEOVIM = k) ∧
       (∀ st, (some State.NEW : Option State) = some st → State.NEW = st) ∧
       (false = true → false = true))) :=
  ⟨by decide, report_filters_and.1 _ _⟩

/-- C8: `parse_file` reads the file before consulting the override table: a
failing read propagates its exception — aborting the run — even for a path
with an override entry (the first witness conjunct applies this to such a
path); and when the read succeeds and the path is tabled, the record is
built solely from the table entry, the content read being unused. -/
theorem parse_file_read_first :
    (∀ fs path e, fs path = Except.error e →
      parse_file fs path = Except.error e) ∧
    (∀ fs args path rest e, fs path = Except.error e →
      mainLoop fs args (path :: rest) = Except.error e) ∧
    (∀ fs path content st k d, fs path = Except.ok content →
      knownLookup path = some (st, k, d) →
      parse_file fs path = Except.ok (some
        { path := path, state := st, kind := k, dep_warnings := d })) := by
  have h1 : ∀ fs path e, fs path = Except.error e →
      parse_file fs path = Except.error e := by
    intro fs path e h
    simp [parse_file, h]
  refine ⟨h1, ?_, ?_⟩
  · intro fs args path rest e h
    simp [mainLoop, h1 fs path e h]
  · intro fs path content st k d hfs hk
    simp [parse_file, hfs, hk]

/-- Witness for C8: a read failure on the tabled chadtree path aborts with
the I/O error despite the override entry; a successful read on the tabled
lsp path yields the tabled `(NEW, MISC, false)` triple although the content
read would heuristically classify as `(NEW, NEOVIM)`. -/
theorem parse_file_read_first_witness :
    parse_file (fun _ => Except.error PyErr.ioError)
        "plugins/by-name/chadtree/default.nix" =
      Except.error PyErr.ioError ∧
    parse_file (fun _ => Except.ok "mkNeovimPlugin")
        "plugins/lsp/default.nix" =
      Except.ok (some
        { path := "plugins/lsp/default.nix", state := State.NEW,
          kind := Kind.MISC, dep_warnings := false }) :=
  ⟨parse_file_read_first.1 _ "plugins/by-name/chadtree/default.nix"
     PyErr.ioError rfl,
   parse_file_read_first.2.2 _ "plugins/lsp/default.nix" "mkNeovimPlugin"
     State.NEW Kind.MISC false rfl (by decide)⟩

end ListPlugins
